import Mathlib

/-!
Verification of the invoice delivery core of the `shopmaze_backend`
repository.  The definitions below are a shallow embedding of the second
(current) `InvoicePoller` variant in `src/shared/invoicePoller.js` and of
the session-router pieces of `src/websocket-server.js`.  JavaScript `Map`s
are modelled as association lists with `Map.set` replace-in-place
semantics, `Set`s as lists with membership insertion, the S3 bucket as a
partial function from keys to byte lists, and the invoice directory as an
association list from filenames to records.  Machine-level concerns the
code never relies on (string encodings of timestamps, JSON formatting) are
carried as opaque strings.
-/

namespace ShopMaze

/-- Lookup in a JavaScript `Map` modelled as an association list. -/
def mapGet (k : String) : List (String × α) → Option α
  | [] => none
  | (k', v) :: rest => if k' = k then some v else mapGet k rest

/-- JavaScript `Map.set`: replace the entry in place if the key is present,
otherwise append a fresh entry. -/
def mapSet (k : String) (v : α) : List (String × α) → List (String × α)
  | [] => [(k, v)]
  | (k', v') :: rest =>
      if k' = k then (k, v) :: rest else (k', v') :: mapSet k v rest

/-- JavaScript `Map.delete`: remove the (first) entry for the key. -/
def mapDelete (k : String) : List (String × α) → List (String × α)
  | [] => []
  | (k', v) :: rest => if k' = k then rest else (k', v) :: mapDelete k rest

/-- Number of entries carrying a given key. -/
def countKey (k : String) (m : List (String × α)) : Nat :=
  (m.filter (fun p => p.1 = k)).length

/-- JavaScript falsiness of an optional string argument: `undefined`/missing
and the empty string are falsy. -/
def jsFalsy : Option String → Bool
  | none => true
  | some s => s = ""

/-- JavaScript `a || b` on an optional string with a string default. -/
def jsOr (o : Option String) (d : String) : String :=
  match o with
  | none => d
  | some s => if s = "" then d else s

/-! ### Base64 (Node `Buffer.toString('base64')`) -/

/-- Standard base64 alphabet, index 0–63. -/
def b64chr (i : Nat) : Char :=
  if i < 26 then Char.ofNat (65 + i)
  else if i < 52 then Char.ofNat (97 + (i - 26))
  else if i < 62 then Char.ofNat (48 + (i - 52))
  else if i = 62 then '+'
  else '/'

/-- Inverse of the base64 alphabet. -/
def b64inv (c : Char) : Option Nat :=
  if 'A' ≤ c ∧ c ≤ 'Z' then some (c.toNat - 65)
  else if 'a' ≤ c ∧ c ≤ 'z' then some (c.toNat - 97 + 26)
  else if '0' ≤ c ∧ c ≤ '9' then some (c.toNat - 48 + 52)
  else if c = '+' then some 62
  else if c = '/' then some 63
  else none

/-- Base64 encoding of a byte sequence with `=` padding, as produced by
Node's `Buffer.prototype.toString('base64')`. -/
def base64Encode : List (Fin 256) → List Char
  | [] => []
  | [b1] =>
      [b64chr (b1.val / 4), b64chr (b1.val % 4 * 16), '=', '=']
  | [b1, b2] =>
      [b64chr (b1.val / 4), b64chr (b1.val % 4 * 16 + b2.val / 16),
       b64chr (b2.val % 16 * 4), '=']
  | b1 :: b2 :: b3 :: rest =>
      b64chr (b1.val / 4) :: b64chr (b1.val % 4 * 16 + b2.val / 16) ::
      b64chr (b2.val % 16 * 4 + b3.val / 64) :: b64chr (b3.val % 64) ::
      base64Encode rest

/-- Base64 decoding back to a byte sequence (as natural numbers). -/
def base64Decode : List Char → Option (List Nat)
  | [] => some []
  | c1 :: c2 :: c3 :: c4 :: rest =>
      if c3 = '=' then
        if c4 = '=' ∧ rest = [] then do
          let e1 ← b64inv c1
          let e2 ← b64inv c2
          pure [e1 * 4 + e2 / 16]
        else none
      else if c4 = '=' then
        if rest = [] then do
          let e1 ← b64inv c1
          let e2 ← b64inv c2
          let e3 ← b64inv c3
          pure [e1 * 4 + e2 / 16, e2 % 16 * 16 + e3 / 4]
        else none
      else do
        let e1 ← b64inv c1
        let e2 ← b64inv c2
        let e3 ← b64inv c3
        let e4 ← b64inv c4
        let tail ← base64Decode rest
        pure ((e1 * 4 + e2 / 16) :: (e2 % 16 * 16 + e3 / 4) ::
              (e3 % 4 * 64 + e4) :: tail)
  | _ => none

lemma b64inv_b64chr : ∀ i : Fin 64, b64inv (b64chr i.val) = some i.val := by
  decide

lemma b64inv_b64chr' {n : Nat} (h : n < 64) : b64inv (b64chr n) = some n :=
  b64inv_b64chr ⟨n, h⟩

lemma packDiv {m x y : Nat} (hm : 0 < m) (hy : y < m) : (x * m + y) / m = x := by
  rw [Nat.add_comm, Nat.add_mul_div_right _ _ hm, Nat.div_eq_of_lt hy,
    Nat.zero_add]

lemma packMod {m x y : Nat} (hy : y < m) : (x * m + y) % m = y := by
  rw [Nat.add_comm, Nat.add_mul_mod_self_right, Nat.mod_eq_of_lt hy]

lemma b64chr_ne_eq {n : Nat} (h : n < 64) : b64chr n ≠ '=' := by
  have := b64inv_b64chr' h
  intro hc
  rw [hc] at this
  simp [b64inv] at this

/-- Round trip: decoding an encoded byte sequence recovers the bytes. -/
theorem base64_roundtrip :
    ∀ bs : List (Fin 256),
      base64Decode (base64Encode bs) = some (bs.map Fin.val)
  | [] => by simp [base64Encode, base64Decode]
  | [b1] => by
      have h1 := b1.isLt
      have e1 : b1.val / 4 < 64 := by omega
      have e2 : b1.val % 4 * 16 < 64 := by omega
      simp only [base64Encode, base64Decode, b64inv_b64chr' e1,
        b64inv_b64chr' e2, if_pos rfl, and_self, Option.bind_eq_bind,
        Option.some_bind, List.map, if_pos (And.intro rfl rfl), if_true,
        Option.pure_def]
      refine congrArg some (congrArg (· :: []) ?_)
      omega
  | [b1, b2] => by
      have h1 := b1.isLt
      have h2 := b2.isLt
      have e1 : b1.val / 4 < 64 := by omega
      have e2 : b1.val % 4 * 16 + b2.val / 16 < 64 := by omega
      have e3 : b2.val % 16 * 4 < 64 := by omega
      simp only [base64Encode, base64Decode,
        if_neg (b64chr_ne_eq e3), if_pos rfl, b64inv_b64chr' e1,
        b64inv_b64chr' e2, b64inv_b64chr' e3, Option.bind_eq_bind,
        Option.some_bind, List.map, Option.some.injEq, List.cons.injEq,
        and_true, if_true, Option.pure_def]
      have d1 : (b1.val % 4 * 16 + b2.val / 16) / 16 = b1.val % 4 :=
        packDiv (by omega) (by omega)
      have m1 : (b1.val % 4 * 16 + b2.val / 16) % 16 = b2.val / 16 :=
        packMod (by omega)
      have d2 : b2.val % 16 * 4 / 4 = b2.val % 16 := by
        have h0 := packDiv (m := 4) (x := b2.val % 16) (y := 0) (by omega) (by omega)
        rw [Nat.add_zero] at h0
        exact h0
      rw [d1, m1, d2]
      and_intros <;> first | rfl | omega
  | b1 :: b2 :: b3 :: rest => by
      have h1 := b1.isLt
      have h2 := b2.isLt
      have h3 := b3.isLt
      have e1 : b1.val / 4 < 64 := by omega
      have e2 : b1.val % 4 * 16 + b2.val / 16 < 64 := by omega
      have e3 : b2.val % 16 * 4 + b3.val / 64 < 64 := by omega
      have e4 : b3.val % 64 < 64 := by omega
      have ih := base64_roundtrip rest
      -- the first four emitted characters are never '=', so the generic
      -- four-character branch of the decoder applies
      simp only [base64Encode, base64Decode,
        if_neg (b64chr_ne_eq e3), if_neg (b64chr_ne_eq e4),
        b64inv_b64chr' e1, b64inv_b64chr' e2, b64inv_b64chr' e3,
        b64inv_b64chr' e4, ih, Option.bind_eq_bind, Option.some_bind,
        List.map, Option.some.injEq, List.cons.injEq, and_true, if_true,
        Option.pure_def]
      have d1 : (b1.val % 4 * 16 + b2.val / 16) / 16 = b1.val % 4 :=
        packDiv (by omega) (by omega)
      have m1 : (b1.val % 4 * 16 + b2.val / 16) % 16 = b2.val / 16 :=
        packMod (by omega)
      have d2 : (b2.val % 16 * 4 + b3.val / 64) / 4 = b2.val % 16 :=
        packDiv (by omega) (by omega)
      have m2 : (b2.val % 16 * 4 + b3.val / 64) % 4 = b3.val / 64 :=
        packMod (by omega)
      rw [d1, m1, d2, m2]
      and_intros <;> first | rfl | omega

/-! ### Filename matching (`extractInvoiceNumber`, `invoicePoller.js` 1127–1144)

Each JavaScript regular expression is embedded as a leftmost-match scanner
over the character list of the filename.  Since every quantifier in the four
patterns is a greedy `\d+` followed by a non-digit requirement, backtracking
inside the digit run can never succeed, so the leftmost match of each regex
is exactly "first start position at which the rigid pattern fits", which is
what the scanners compute. -/

/-- Case-insensitive prefix test (JavaScript `i` flag semantics for the
literal parts of the patterns). -/
def startsWithCI : List Char → List Char → Bool
  | [], _ => true
  | _ :: _, [] => false
  | p :: ps, c :: cs => (p.toLower == c.toLower) && startsWithCI ps cs

/-- Attempt `invoice[_-](\d+)` (case-insensitive) at the current position. -/
def tryInvoiceSepDigits (l : List Char) : Option (List Char) :=
  if startsWithCI "invoice".data l then
    match l.drop 7 with
    | c :: rest =>
        if c = '_' ∨ c = '-' then
          let ds := rest.takeWhile Char.isDigit
          if ds.isEmpty then none else some ds
        else none
    | [] => none
  else none

/-- Attempt `(\d+)\.pdf$` (case-insensitive) at the current position. -/
def tryDigitsPdf (l : List Char) : Option (List Char) :=
  match l with
  | c :: _ =>
      if c.isDigit then
        let ds := l.takeWhile Char.isDigit
        let tail := l.dropWhile Char.isDigit
        if tail.map Char.toLower == ".pdf".data then some ds else none
      else none
  | [] => none

/-- Attempt `invoice(\d+)` (case-insensitive) at the current position. -/
def tryInvoiceDigits (l : List Char) : Option (List Char) :=
  if startsWithCI "invoice".data l then
    let ds := (l.drop 7).takeWhile Char.isDigit
    if ds.isEmpty then none else some ds
  else none

/-- Attempt `(\d+)[_-]invoice` (case-insensitive) at the current position. -/
def tryDigitsSepInvoice (l : List Char) : Option (List Char) :=
  match l with
  | c :: _ =>
      if c.isDigit then
        let ds := l.takeWhile Char.isDigit
        match l.dropWhile Char.isDigit with
        | s :: rest =>
            if (s = '_' ∨ s = '-') ∧ startsWithCI "invoice".data rest then
              some ds
            else none
        | [] => none
      else none
  | [] => none

/-- Leftmost match of a positional matcher, as JavaScript `String.match`
scans start positions from the left. -/
def scanFirst (t : List Char → Option (List Char)) : List Char → Option (List Char)
  | [] => t []
  | c :: cs =>
      match t (c :: cs) with
      | some ds => some ds
      | none => scanFirst t cs

/-- The four patterns of `extractInvoiceNumber`, in source order. -/
def invoicePatterns : List (List Char → Option (List Char)) :=
  [scanFirst tryInvoiceSepDigits, scanFirst tryDigitsPdf,
   scanFirst tryInvoiceDigits, scanFirst tryDigitsSepInvoice]

/-- The `for (const pattern of patterns)` loop: first match wins. -/
def firstMatch : List (List Char → Option (List Char)) → List Char → Option (List Char)
  | [], _ => none
  | p :: ps, l =>
      match p l with
      | some m => some m
      | none => firstMatch ps l

/-- Embedding of `extractInvoiceNumber` (`invoicePoller.js` 1127–1144). -/
def extractInvoiceNumber (filename : String) : Option String :=
  (firstMatch invoicePatterns filename.data).map List.asString

/-! ### Data model -/

/-- The `orderData` argument of `registerExpectedInvoice`.  Fields the
caller may omit are optional; their payloads are carried opaquely. -/
structure OrderData where
  customerName : Option String
  customerEmail : Option String
  orderId : Option String
  totalAmount : Option String
  summary : Option String
deriving DecidableEq

/-- An entry of the `expectedInvoices` map
(`invoicePoller.js` 706–714). -/
structure ExpectedInvoiceData where
  playerId : String
  customerName : String
  customerEmail : String
  orderId : Option String
  totalAmount : Option String
  summary : Option String
  registeredAt : String
deriving DecidableEq

/-- The entry built by `registerExpectedInvoice`: `customerName` and
`customerEmail` default to the player id via JavaScript `||`. -/
def mkExpectedInvoiceData (playerId : String) (orderData : OrderData)
    (now : String) : ExpectedInvoiceData :=
  { playerId := playerId
    customerName := jsOr orderData.customerName playerId
    customerEmail := jsOr orderData.customerEmail playerId
    orderId := orderData.orderId
    totalAmount := orderData.totalAmount
    summary := orderData.summary
    registeredAt := now }

/-- Embedding of `registerExpectedInvoice` (`invoicePoller.js` 700–723),
acting on the `expectedInvoices` map.  A missing or empty `invoiceNumber`
or `playerId` is rejected up front (the function logs and returns). -/
def registerExpectedInvoice (m : List (String × ExpectedInvoiceData))
    (invoiceNumber playerId : Option String) (orderData : OrderData)
    (now : String) : List (String × ExpectedInvoiceData) :=
  match invoiceNumber, playerId with
  | some inv, some pid =>
      if inv = "" ∨ pid = "" then m
      else mapSet inv (mkExpectedInvoiceData pid orderData now) m
  | _, _ => m

/-- Embedding of `getExpectedInvoiceDataForPlayer`
(`invoicePoller.js` 750–766): first entry registered for the player. -/
def getExpectedInvoiceDataForPlayer (m : List (String × ExpectedInvoiceData))
    (playerId : String) : Option ExpectedInvoiceData :=
  match m with
  | [] => none
  | (_, e) :: rest =>
      if e.playerId = playerId then some e
      else getExpectedInvoiceDataForPlayer rest playerId

/-- A processed-invoice record as built by `processAndStoreInvoice`
(`invoicePoller.js` 1192–1203).  The `savedAt`/`filePath` metadata added on
write is not inspected by any claim and is omitted; `s3Metadata` is
flattened into the three `s3`-prefixed fields. -/
structure InvoiceRecord where
  playerId : String
  base64Data : List Char
  filename : String
  fileSize : Nat
  processedAt : String
  s3Key : String
  s3Size : Nat
  s3LastModified : String
deriving DecidableEq

/-- The state owned by the invoice store: the in-memory
`processedInvoicesCache` (a JavaScript `Set` of invoice numbers) and the
storage directory, as an association list from filename to record. -/
structure StoreState where
  cache : List String
  disk : List (String × InvoiceRecord)
deriving DecidableEq

/-- Canonical on-disk filename used by `saveInvoiceToFilesystem` and
`fetchInvoiceFromFilesystem` (`invoicePoller.js` 795, 822). -/
def canonicalFile (invoiceNumber : String) : String :=
  "invoice_" ++ invoiceNumber ++ ".json"

/-- Legacy filename used by `deleteInvoiceFromFilesystem`
(`invoicePoller.js` 873). -/
def legacyFile (invoiceNumber : String) : String :=
  invoiceNumber ++ ".json"

/-- Embedding of `fetchInvoiceFromFilesystem` (`invoicePoller.js` 820–840):
read the canonical filename; `ENOENT` becomes `none`.  (Read errors other
than `ENOENT` are not modelled.) -/
def fetchInvoiceFromFilesystem (invoiceNumber : String)
    (disk : List (String × InvoiceRecord)) : Option InvoiceRecord :=
  mapGet (canonicalFile invoiceNumber) disk

/-- The engine's `put`: `saveInvoiceToFilesystem` (`invoicePoller.js`
793–813) followed by the cache insertion the engine performs after a
successful save (`invoicePoller.js` 1111). -/
def storePut (invoiceNumber : String) (record : InvoiceRecord)
    (s : StoreState) : StoreState :=
  { cache := s.cache.insert invoiceNumber
    disk := mapSet (canonicalFile invoiceNumber) record s.disk }

/-- Embedding of `deleteInvoiceFromFilesystem` (`invoicePoller.js`
871–894): unlink the legacy filename (`ENOENT` is swallowed) and remove
the invoice number from the cache in either case. -/
def storeDelete (invoiceNumber : String) (s : StoreState) : StoreState :=
  { cache := s.cache.erase invoiceNumber
    disk := mapDelete (legacyFile invoiceNumber) s.disk }

/-- Embedding of `populateProcessedCache` (`invoicePoller.js` 660–683):
seed the cache from the directory listing, stripping the first occurrence
of `.json` from each `.json` filename (JavaScript
`file.replace('.json', '')`). -/
def stripJson (f : List Char) : List Char :=
  match f with
  | [] => []
  | c :: cs =>
      if (".json".data).isPrefixOf (c :: cs) then cs.drop 4
      else c :: stripJson cs

/-- Seeding of the dedup cache at startup from the on-disk directory. -/
def storeSeed (s : StoreState) : StoreState :=
  { s with
    cache :=
      ((s.disk.map Prod.fst).filter (fun f => ".json".data.isSuffixOf f.data)).map
        (fun f => (stripJson f.data).asString) }

/-- Dedup-cache membership (`processedInvoicesCache.has`). -/
def storeHas (invoiceNumber : String) (s : StoreState) : Bool :=
  s.cache.contains invoiceNumber

/-- The store's read operation (`getProcessedInvoice` delegating to
`fetchInvoiceFromFilesystem`). -/
def storeGet (invoiceNumber : String) (s : StoreState) : Option InvoiceRecord :=
  fetchInvoiceFromFilesystem invoiceNumber s.disk

/-! ### Polling engine (`pollForInvoices` / `checkAndProcessInvoiceFile`) -/

/-- One entry of an S3 `listObjects` result, as consumed by the poller. -/
structure S3Obj where
  name : String
  size : Nat
  lastModified : String
deriving DecidableEq

/-- The environment of one polling tick: the object store content, the
keys its listing reports, and fault injectors for the operations that can
throw (`getObject`, `fs.writeFile`, the delivery callback). -/
structure Env where
  objects : String → Option (List (Fin 256))
  listing : List String
  lastModified : String → String
  fetchFails : String → Bool
  saveFails : String → Bool
  cbFails : String → Bool
  now : String

/-- Mutable state of the poller relevant to a tick: the
`expectedInvoices` map and the invoice store. -/
structure PollerState where
  expected : List (String × ExpectedInvoiceData)
  store : StoreState
deriving DecidableEq

/-- Observable actions of a tick: an object-store fetch attempt, a disk
write of a record, and an invocation of the delivery callback. -/
inductive Event where
  | fetch (key : String)
  | write (filename : String) (record : InvoiceRecord)
  | callback (invoiceNumber : String) (record : InvoiceRecord)
deriving DecidableEq

/-- The record assembled by `processAndStoreInvoice` (`invoicePoller.js`
1192–1203): the payload is the base64 of the fetched bytes, while
`fileSize` is copied from the listing entry. -/
def mkProcessedData (env : Env) (playerId : String) (o : S3Obj)
    (bytes : List (Fin 256)) : InvoiceRecord :=
  { playerId := playerId
    base64Data := base64Encode bytes
    filename := o.name
    fileSize := o.size
    processedAt := env.now
    s3Key := o.name
    s3Size := o.size
    s3LastModified := o.lastModified }

/-- Embedding of `processAndStoreInvoice` (`invoicePoller.js` 1177–1224).
The boolean reports whether the function returned normally (`true`) or
threw (`false`): a failing `getObject` or `saveInvoiceToFilesystem`
propagates out, while a failing delivery callback is caught and logged.
The event list records the fetch attempt, a successful write, and the
callback invocation, in order. -/
def processAndStoreInvoice (env : Env) (invoiceNumber : String) (o : S3Obj)
    (playerId : String) (st : PollerState) :
    Bool × PollerState × List Event :=
  match env.objects o.name with
  | none => (false, st, [Event.fetch o.name])
  | some bytes =>
      if env.fetchFails o.name then (false, st, [Event.fetch o.name])
      else
        let record := mkProcessedData env playerId o bytes
        if env.saveFails invoiceNumber then (false, st, [Event.fetch o.name])
        else
          (true,
           { st with store :=
              { st.store with
                disk := mapSet (canonicalFile invoiceNumber) record st.store.disk } },
           [Event.fetch o.name,
            Event.write (canonicalFile invoiceNumber) record,
            Event.callback invoiceNumber record])

/-- Embedding of `checkAndProcessInvoiceFile` (`invoicePoller.js`
1033–1119).  The delivery callback is assumed registered, as the server
installs it at startup; exceptions thrown by `processAndStoreInvoice` are
caught at the end of the function, so the cache insertion and the
`expectedInvoices.delete` only happen on its normal return. -/
def checkAndProcessInvoiceFile (env : Env) (o : S3Obj) (st : PollerState) :
    PollerState × List Event :=
  match extractInvoiceNumber o.name with
  | none => (st, [])
  | some invoiceNumber =>
      match mapGet invoiceNumber st.expected with
      | none => (st, [])
      | some expectedData =>
          if st.store.cache.contains invoiceNumber then
            match fetchInvoiceFromFilesystem invoiceNumber st.store.disk with
            | some existing =>
                ({ st with expected := mapDelete invoiceNumber st.expected },
                 [Event.callback invoiceNumber existing])
            | none =>
                ({ st with expected := mapDelete invoiceNumber st.expected }, [])
          else
            match fetchInvoiceFromFilesystem invoiceNumber st.store.disk with
            | some existing =>
                ({ st with
                    expected := mapDelete invoiceNumber st.expected,
                    store := { st.store with
                      cache := st.store.cache.insert invoiceNumber } },
                 [Event.callback invoiceNumber existing])
            | none =>
                match processAndStoreInvoice env invoiceNumber o
                    expectedData.playerId st with
                | (true, st', evs) =>
                    ({ st' with
                        expected := mapDelete invoiceNumber st'.expected,
                        store := { st'.store with
                          cache := st'.store.cache.insert invoiceNumber } },
                     evs)
                | (false, st', evs) => (st', evs)

/-- Substring containment on character lists (JavaScript
`String.includes`). -/
def listContains (p : List Char) : List Char → Bool
  | [] => p.isEmpty
  | c :: cs => p.isPrefixOf (c :: cs) || listContains p cs

/-- The per-object filter of the tick loop (`invoicePoller.js`
1015–1020): only names ending in `.pdf` or containing `invoice`
(case-insensitively) are examined. -/
def pollFilter (name : String) : Bool :=
  (".pdf".data.isSuffixOf (name.data.map Char.toLower)) ||
  listContains "invoice".data (name.data.map Char.toLower)

/-- One object of the tick loop: objects failing the filter are skipped
without being examined. -/
def pollStep (env : Env) (st : PollerState) (o : S3Obj) :
    PollerState × List Event :=
  if pollFilter o.name then checkAndProcessInvoiceFile env o st else (st, [])

/-- The iteration over the listing, threading state and accumulating
events. -/
def pollGo (env : Env) : List S3Obj → PollerState × List Event →
    PollerState × List Event
  | [], acc => acc
  | o :: rest, (st, evs) =>
      let r := pollStep env st o
      pollGo env rest (r.1, evs ++ r.2)

/-- The tick's view of the bucket listing: each reported key with the
stored object's size. -/
def listingOf (env : Env) : List S3Obj :=
  env.listing.map fun k =>
    { name := k
      size := ((env.objects k).getD []).length
      lastModified := env.lastModified k }

/-- Embedding of one successful-listing tick of `pollForInvoices`
(`invoicePoller.js` 996–1026): an empty listing is a no-op, otherwise
every listed object is run through the filter and
`checkAndProcessInvoiceFile`. -/
def pollForInvoices (env : Env) (st : PollerState) :
    PollerState × List Event :=
  let objects := listingOf env
  if objects.isEmpty then (st, [])
  else pollGo env objects (st, [])

/-! ### Session router: `request_invoice` -/

/-- Frames the server can send in reply to `request_invoice`. -/
inductive ServerFrame where
  | invoicePdf (invoiceNumber : String) (base64Data : List Char)
      (fileSize : Nat) (summary : Option String)
  | invoiceError (invoiceNumber : String) (message : String)
deriving DecidableEq

/-- Modelled from the spec: the `request_invoice` frame handler of the
session router.  The handler itself is missing from the packed
`websocket-server.js` (only `test-websocket-invoice.js` and client code
reference the frame), so this follows §4.5/§6 of the specification: resolve
the requesting player from the reverse session map, read the record through
the store, reply `invoice_pdf` with the full stored base64 payload (with
the summary from the registry by PN, falling back to a lookup by player),
or `invoice_response` with an error when no record exists.  The boolean
result records whether the handler closes the session (it never does). -/
def handleRequestInvoice (expected : List (String × ExpectedInvoiceData))
    (store : StoreState) (requester : Option String)
    (invoiceNumber : String) : ServerFrame × Bool :=
  match storeGet invoiceNumber store with
  | some record =>
      let summary :=
        match mapGet invoiceNumber expected with
        | some e => e.summary
        | none =>
            match requester with
            | some pid => (getExpectedInvoiceDataForPlayer expected pid).bind
                (fun e => e.summary)
            | none => none
      (ServerFrame.invoicePdf invoiceNumber record.base64Data record.fileSize
        summary, false)
  | none =>
      (ServerFrame.invoiceError invoiceNumber
        ("Invoice " ++ invoiceNumber ++ " not found"), false)

/-! ### Helper lemmas about the map model -/

lemma mapGet_mapSet_self (k : String) (v : α) (m : List (String × α)) :
    mapGet k (mapSet k v m) = some v := by
  induction m with
  | nil => simp [mapSet, mapGet]
  | cons p rest ih =>
      obtain ⟨k', v'⟩ := p
      by_cases h : k' = k
      · simp [mapSet, h, mapGet]
      · simp [mapSet, h, mapGet, ih]

lemma countKey_cons_self (k : String) (v : α) (m : List (String × α)) :
    countKey k ((k, v) :: m) = countKey k m + 1 := by
  simp [countKey, List.filter]

lemma countKey_cons_ne (k k' : String) (v : α) (m : List (String × α))
    (h : k' ≠ k) : countKey k ((k', v) :: m) = countKey k m := by
  simp [countKey, List.filter, h]

lemma countKey_mapSet_self (k : String) (v : α) (m : List (String × α))
    (h : countKey k m ≤ 1) : countKey k (mapSet k v m) = 1 := by
  induction m with
  | nil => simp [mapSet, countKey, List.filter]
  | cons p rest ih =>
      obtain ⟨k', v'⟩ := p
      by_cases hk : k' = k
      · have hce : countKey k ((k', v') :: rest) = countKey k rest + 1 := by
          rw [hk]
          exact countKey_cons_self k v' rest
        have h0 : countKey k rest = 0 := by omega
        simp [mapSet, hk, countKey_cons_self, h0]
      · rw [countKey_cons_ne k k' v' rest hk] at h
        simp [mapSet, hk, countKey_cons_ne k k' v' _ hk, ih h]

lemma mapGet_of_countKey_zero (k : String) (m : List (String × α))
    (h : countKey k m = 0) : mapGet k m = none := by
  induction m with
  | nil => simp [mapGet]
  | cons p rest ih =>
      obtain ⟨k', v'⟩ := p
      by_cases hk : k' = k
      · subst hk
        rw [countKey_cons_self] at h
        omega
      · rw [countKey_cons_ne k k' v' rest hk] at h
        simp [mapGet, hk, ih h]

lemma mapGet_mapDelete_self (k : String) (m : List (String × α))
    (h : countKey k m ≤ 1) : mapGet k (mapDelete k m) = none := by
  induction m with
  | nil => simp [mapDelete, mapGet]
  | cons p rest ih =>
      obtain ⟨k', v'⟩ := p
      by_cases hk : k' = k
      · have hce : countKey k ((k', v') :: rest) = countKey k rest + 1 := by
          rw [hk]
          exact countKey_cons_self k v' rest
        have h0 : countKey k rest = 0 := by omega
        simp [mapDelete, hk, mapGet_of_countKey_zero k rest h0]
      · rw [countKey_cons_ne k k' v' rest hk] at h
        simp [mapDelete, hk, mapGet, ih h]

lemma contains_insert_self (a : String) (l : List String) :
    (l.insert a).contains a = true := by
  have h := List.mem_insert_self a l
  exact List.elem_iff.mpr h

/-! ### Characterisation of the process-and-notify path -/

/-- Outcomes of `processAndStoreInvoice`: either the fetch and the save
both succeed and the function returns normally having written the record
and invoked the callback, or one of them throws, in which case the state
is untouched and only the fetch attempt is observable. -/
lemma processAndStore_spec (env : Env) (invoiceNumber : String) (o : S3Obj)
    (playerId : String) (st : PollerState) :
    (∃ bytes, env.objects o.name = some bytes ∧
      env.fetchFails o.name = false ∧ env.saveFails invoiceNumber = false ∧
      processAndStoreInvoice env invoiceNumber o playerId st =
        (true,
         { st with store := { st.store with
            disk := mapSet (canonicalFile invoiceNumber)
              (mkProcessedData env playerId o bytes) st.store.disk } },
         [Event.fetch o.name,
          Event.write (canonicalFile invoiceNumber)
            (mkProcessedData env playerId o bytes),
          Event.callback invoiceNumber
            (mkProcessedData env playerId o bytes)])) ∨
    processAndStoreInvoice env invoiceNumber o playerId st =
      (false, st, [Event.fetch o.name]) := by
  cases hobj : env.objects o.name with
  | none => right; simp [processAndStoreInvoice, hobj]
  | some bytes =>
      cases hff : env.fetchFails o.name with
      | true => right; simp [processAndStoreInvoice, hobj, hff]
      | false =>
          cases hsf : env.saveFails invoiceNumber with
          | true => right; simp [processAndStoreInvoice, hobj, hff, hsf]
          | false =>
              left
              exact ⟨bytes, rfl, rfl, rfl,
                by simp [processAndStoreInvoice, hobj, hff, hsf]⟩

/-- Under the first-fetch hypotheses (extracted PN registered, not in the
dedup cache, no record on disk) the examination of an object reduces to
the process-and-notify path. -/
lemma checkAndProcess_first_fetch (env : Env) (o : S3Obj) (st : PollerState)
    (pn : String) (ed : ExpectedInvoiceData)
    (hx : extractInvoiceNumber o.name = some pn)
    (hg : mapGet pn st.expected = some ed)
    (hc : st.store.cache.contains pn = false)
    (hd : fetchInvoiceFromFilesystem pn st.store.disk = none) :
    checkAndProcessInvoiceFile env o st =
      match processAndStoreInvoice env pn o ed.playerId st with
      | (true, st', evs) =>
          ({ st' with
              expected := mapDelete pn st'.expected,
              store := { st'.store with
                cache := st'.store.cache.insert pn } }, evs)
      | (false, st', evs) => (st', evs) := by
  unfold checkAndProcessInvoiceFile
  simp only [hx, hg, hd, hc, Bool.false_eq_true, if_false]

/-! ### Concrete fixtures used by the witnesses -/

/-- Bytes of a small artifact (`%PDF`). -/
def bytesA : List (Fin 256) := [37, 80, 68, 70]

/-- A listing entry for the artifact of PN `1030`. -/
def objA : S3Obj :=
  { name := "invoice_1030.pdf", size := 4, lastModified := "lmA" }

def orderA : OrderData :=
  { customerName := some "Alice A"
    customerEmail := some "alice@example.com"
    orderId := some "o-1"
    totalAmount := some "50"
    summary := some "sumA" }

def orderB : OrderData :=
  { customerName := some "Bob B"
    customerEmail := some "bob@example.com"
    orderId := some "o-2"
    totalAmount := some "70"
    summary := some "sumB" }

def edA : ExpectedInvoiceData := mkExpectedInvoiceData "alice" orderA "t0"

/-- A healthy environment: the bucket holds the `1030` artifact and no
operation fails. -/
def envOkA : Env :=
  { objects := fun k => if k = "invoice_1030.pdf" then some bytesA else none
    listing := ["invoice_1030.pdf"]
    lastModified := fun _ => "lmA"
    fetchFails := fun _ => false
    saveFails := fun _ => false
    cbFails := fun _ => false
    now := "t1" }

def envSaveFailA : Env := { envOkA with saveFails := fun _ => true }

def envCbFailA : Env := { envOkA with cbFails := fun _ => true }

/-- Poller state with PN `1030` registered and an empty store. -/
def stA : PollerState :=
  { expected := [("1030", edA)], store := { cache := [], disk := [] } }

/-- The record the engine builds for `objA`. -/
def recA : InvoiceRecord := mkProcessedData envOkA "alice" objA bytesA

def emptyStore : StoreState := { cache := [], disk := [] }

/-! ### The claims -/

/-- C9: `extractInvoiceNumber` evaluates the four patterns
`invoice[_-](\d+)`, `(\d+)\.pdf$`, `invoice(\d+)`, `(\d+)[_-]invoice` in
exactly that order (each case-insensitively, via its leftmost-match
scanner), returns the digit group captured by the first pattern that
matches, and returns no PN when none of the four matches. -/
theorem extraction_pattern_order (filename : String) :
    (firstMatch invoicePatterns filename.data =
      Option.orElse (scanFirst tryInvoiceSepDigits filename.data) fun _ =>
        Option.orElse (scanFirst tryDigitsPdf filename.data) fun _ =>
          Option.orElse (scanFirst tryInvoiceDigits filename.data) fun _ =>
            scanFirst tryDigitsSepInvoice filename.data) ∧
    (scanFirst tryInvoiceSepDigits filename.data = none →
     scanFirst tryDigitsPdf filename.data = none →
     scanFirst tryInvoiceDigits filename.data = none →
     scanFirst tryDigitsSepInvoice filename.data = none →
     extractInvoiceNumber filename = none) := by
  constructor
  · simp only [invoicePatterns, firstMatch]
    cases h1 : scanFirst tryInvoiceSepDigits filename.data with
    | some m => simp
    | none =>
        cases h2 : scanFirst tryDigitsPdf filename.data with
        | some m => simp
        | none =>
            cases h3 : scanFirst tryInvoiceDigits filename.data with
            | some m => simp
            | none => cases h4 : scanFirst tryDigitsSepInvoice filename.data <;> simp
  · intro h1 h2 h3 h4
    simp [extractInvoiceNumber, invoicePatterns, firstMatch, h1, h2, h3, h4]

/-- Witness for C9 at a filename none of the patterns matches. -/
theorem extraction_pattern_order_witness :
    extractInvoiceNumber "shipment.txt" = none :=
  (extraction_pattern_order "shipment.txt").2 rfl rfl rfl rfl

/-- C1: for every object examined during a tick, if no pattern matches its
filename, or the extracted PN has no entry in the expected-invoice
registry at that moment, then the examination leaves the state unchanged
and performs no fetch, no disk write, and no delivery callback (the event
trace is empty). -/
theorem strict_expected_only (env : Env) (st : PollerState) (o : S3Obj)
    (h : extractInvoiceNumber o.name = none ∨
      ∀ pn, extractInvoiceNumber o.name = some pn →
        mapGet pn st.expected = none) :
    pollStep env st o = (st, []) := by
  unfold pollStep
  by_cases hf : pollFilter o.name
  · rw [if_pos hf]
    unfold checkAndProcessInvoiceFile
    cases hx : extractInvoiceNumber o.name with
    | none => simp
    | some pn =>
        rcases h with h | h
        · rw [h] at hx
          cases hx
        · have hnone := h pn hx
          simp [hnone]
  · rw [if_neg hf]

/-- Witness for C1: a listed object whose PN is extracted but not
registered is skipped with no state change and no events. -/
theorem strict_expected_only_witness :
    pollStep envOkA { expected := [], store := emptyStore }
        { name := "invoice_9999.pdf", size := 3, lastModified := "lm" } =
      ({ expected := [], store := emptyStore }, []) :=
  strict_expected_only envOkA { expected := [], store := emptyStore }
    { name := "invoice_9999.pdf", size := 3, lastModified := "lm" }
    (Or.inr fun _ _ => rfl)

/-- C2: on the first fetch of a PN in a tick (registered, not in the
dedup cache, no record on disk), the delivery callback is invoked only
after the record has been written: any callback event comes last in the
trace `fetch, write, callback` and the written record is readable from the
resulting disk; and if persisting fails, the trace holds no callback and
the state — including the PN's registry entry — is unchanged, so the next
tick retries. -/
theorem no_delivery_without_persistence (env : Env) (o : S3Obj)
    (st : PollerState) (pn : String) (ed : ExpectedInvoiceData)
    (hx : extractInvoiceNumber o.name = some pn)
    (hg : mapGet pn st.expected = some ed)
    (hc : st.store.cache.contains pn = false)
    (hd : fetchInvoiceFromFilesystem pn st.store.disk = none) :
    (∀ record,
      Event.callback pn record ∈ (checkAndProcessInvoiceFile env o st).2 →
        (checkAndProcessInvoiceFile env o st).2 =
          [Event.fetch o.name, Event.write (canonicalFile pn) record,
           Event.callback pn record] ∧
        fetchInvoiceFromFilesystem pn
          (checkAndProcessInvoiceFile env o st).1.store.disk = some record) ∧
    (env.saveFails pn = true →
      (∀ record,
        Event.callback pn record ∉ (checkAndProcessInvoiceFile env o st).2) ∧
      (checkAndProcessInvoiceFile env o st).1 = st) := by
  have hred := checkAndProcess_first_fetch env o st pn ed hx hg hc hd
  rcases processAndStore_spec env pn o ed.playerId st with
    ⟨bytes, hobj, hff, hsf, heq⟩ | heq
  · rw [heq] at hred
    constructor
    · intro record hmem
      rw [hred] at hmem
      simp only [List.mem_cons, List.not_mem_nil, or_false] at hmem
      rcases hmem with hmem | hmem | hmem
      · cases hmem
      · cases hmem
      · have hrec : record = mkProcessedData env ed.playerId o bytes := by
          injection hmem with h1 h2
        subst hrec
        rw [hred]
        refine ⟨rfl, ?_⟩
        simp [fetchInvoiceFromFilesystem, mapGet_mapSet_self]
    · intro hsf'
      rw [hsf] at hsf'
      cases hsf'
  · rw [heq] at hred
    constructor
    · intro record hmem
      rw [hred] at hmem
      simp at hmem
    · intro _
      rw [hred]
      exact ⟨fun record => by simp, rfl⟩

/-- Witness for C2 in the persistence-failure case: the tick makes only a
fetch attempt and leaves the registered state untouched. -/
theorem no_delivery_without_persistence_witness :
    (∀ record,
      Event.callback "1030" record ∉
        (checkAndProcessInvoiceFile envSaveFailA objA stA).2) ∧
    (checkAndProcessInvoiceFile envSaveFailA objA stA).1 = stA :=
  (no_delivery_without_persistence envSaveFailA objA stA "1030" edA
    (by decide) rfl rfl rfl).2 rfl

/-- Any record written while examining one object is the base64 encoding
of the bytes stored under the object's key, with `fileSize` taken from the
listing entry. -/
lemma checkAndProcess_write_mem (env : Env) (o : S3Obj) (st : PollerState) :
    ∀ f r, Event.write f r ∈ (checkAndProcessInvoiceFile env o st).2 →
      ∃ playerId bytes, env.objects o.name = some bytes ∧
        r = mkProcessedData env playerId o bytes := by
  intro f r hmem
  unfold checkAndProcessInvoiceFile at hmem
  cases hx : extractInvoiceNumber o.name with
  | none => simp only [hx] at hmem; simp at hmem
  | some pn =>
      simp only [hx] at hmem
      cases hg : mapGet pn st.expected with
      | none => simp only [hg] at hmem; simp at hmem
      | some ed =>
          simp only [hg] at hmem
          by_cases hcc : st.store.cache.contains pn = true
          · simp only [hcc, if_true] at hmem
            cases hfe : fetchInvoiceFromFilesystem pn st.store.disk with
            | none => simp only [hfe] at hmem; simp at hmem
            | some existing => simp only [hfe] at hmem; simp at hmem
          · have hcf : st.store.cache.contains pn = false := by
              cases hv : st.store.cache.contains pn
              · rfl
              · exact absurd hv hcc
            simp only [hcf, Bool.false_eq_true, if_false] at hmem
            cases hfe : fetchInvoiceFromFilesystem pn st.store.disk with
            | some existing => simp only [hfe] at hmem; simp at hmem
            | none =>
                simp only [hfe] at hmem
                rcases processAndStore_spec env pn o ed.playerId st with
                  ⟨bytes, hobj, hff, hsf, heq⟩ | heq
                · simp only [heq] at hmem
                  simp only [List.mem_cons, List.not_mem_nil, or_false]
                    at hmem
                  rcases hmem with hmem | hmem | hmem
                  · cases hmem
                  · injection hmem with h1 h2
                    exact ⟨ed.playerId, bytes, hobj, h2⟩
                  · cases hmem
                · simp only [heq] at hmem
                  simp at hmem

/-- Lifting of `checkAndProcess_write_mem` through the per-object filter. -/
lemma pollStep_write_mem (env : Env) (st : PollerState) (o : S3Obj) :
    ∀ f r, Event.write f r ∈ (pollStep env st o).2 →
      ∃ playerId bytes, env.objects o.name = some bytes ∧
        r = mkProcessedData env playerId o bytes := by
  intro f r hmem
  unfold pollStep at hmem
  by_cases hf : pollFilter o.name
  · rw [if_pos hf] at hmem
    exact checkAndProcess_write_mem env o st f r hmem
  · rw [if_neg hf] at hmem
    simp at hmem

/-- The size a tick's listing reports for an object is the length of the
bytes stored under its key. -/
lemma listingOf_size (env : Env) :
    ∀ o ∈ listingOf env, o.size = ((env.objects o.name).getD []).length := by
  intro o ho
  unfold listingOf at ho
  rcases List.mem_map.mp ho with ⟨k, _, hk⟩
  rw [← hk]

/-- Every write event accumulated by the tick loop satisfies the
decoded-length property. -/
lemma pollGo_write_good (env : Env) :
    ∀ objs : List S3Obj,
      (∀ o ∈ objs, o.size = ((env.objects o.name).getD []).length) →
      ∀ st evs0,
        (∀ f r, Event.write f r ∈ evs0 →
          ∃ bs, base64Decode r.base64Data = some bs ∧ r.fileSize = bs.length) →
        ∀ f r, Event.write f r ∈ (pollGo env objs (st, evs0)).2 →
          ∃ bs, base64Decode r.base64Data = some bs ∧ r.fileSize = bs.length
  | [], _, st, evs0, hacc, f, r, hmem => hacc f r hmem
  | o :: rest, hsz, st, evs0, hacc, f, r, hmem => by
      have hstep : ∀ f r, Event.write f r ∈ (pollStep env st o).2 →
          ∃ bs, base64Decode r.base64Data = some bs ∧
            r.fileSize = bs.length := by
        intro f r hm
        rcases pollStep_write_mem env st o f r hm with
          ⟨playerId, bytes, hobj, hrec⟩
        refine ⟨bytes.map Fin.val, ?_, ?_⟩
        · rw [hrec]
          exact base64_roundtrip bytes
        · rw [hrec]
          show o.size = (bytes.map Fin.val).length
          rw [hsz o (List.mem_cons_self o rest), hobj]
          simp
      refine pollGo_write_good env rest
        (fun o' ho' => hsz o' (List.mem_cons_of_mem o ho'))
        (pollStep env st o).1 (evs0 ++ (pollStep env st o).2) ?_ f r ?_
      · intro f' r' hm'
        rcases List.mem_append.mp hm' with hm' | hm'
        · exact hacc f' r' hm'
        · exact hstep f' r' hm'
      · exact hmem

/-- C5: for every invoice record written by a polling tick's
process-and-notify path, the `fileSize` field equals the length of the
base64-decoded `base64Data` field — the length of the byte sequence
fetched from the object store for that object. -/
theorem record_fileSize_matches_decoded_length (env : Env)
    (st : PollerState) :
    ∀ f r, Event.write f r ∈ (pollForInvoices env st).2 →
      ∃ bs, base64Decode r.base64Data = some bs ∧ r.fileSize = bs.length := by
  intro f r hmem
  unfold pollForInvoices at hmem
  by_cases he : (listingOf env).isEmpty
  · rw [if_pos he] at hmem
    simp at hmem
  · rw [if_neg he] at hmem
    exact pollGo_write_good env (listingOf env) (listingOf_size env) st []
      (fun f r hm => absurd hm (List.not_mem_nil _)) f r hmem

/-- Witness for C5 on a concrete successful tick. -/
theorem record_fileSize_matches_decoded_length_witness :
    ∃ bs, base64Decode recA.base64Data = some bs ∧ recA.fileSize = bs.length :=
  record_fileSize_matches_decoded_length envOkA stA "invoice_1030.json" recA
    (by decide)

/-- C6: if the artifact is fetched, the record persisted, and the delivery
callback then throws, processing is not undone: the record stays on disk,
the PN is in the dedup cache, and the PN's registry entry is removed. -/
theorem callback_failure_keeps_processing (env : Env) (o : S3Obj)
    (st : PollerState) (pn : String) (ed : ExpectedInvoiceData)
    (bytes : List (Fin 256))
    (hx : extractInvoiceNumber o.name = some pn)
    (hg : mapGet pn st.expected = some ed)
    (hc : st.store.cache.contains pn = false)
    (hd : fetchInvoiceFromFilesystem pn st.store.disk = none)
    (hobj : env.objects o.name = some bytes)
    (hff : env.fetchFails o.name = false)
    (hsf : env.saveFails pn = false)
    (_hcb : env.cbFails pn = true)
    (hct : countKey pn st.expected ≤ 1) :
    fetchInvoiceFromFilesystem pn
        (checkAndProcessInvoiceFile env o st).1.store.disk =
      some (mkProcessedData env ed.playerId o bytes) ∧
    (checkAndProcessInvoiceFile env o st).1.store.cache.contains pn = true ∧
    mapGet pn (checkAndProcessInvoiceFile env o st).1.expected = none := by
  have hred := checkAndProcess_first_fetch env o st pn ed hx hg hc hd
  have heq : processAndStoreInvoice env pn o ed.playerId st =
      (true,
       { st with store := { st.store with
          disk := mapSet (canonicalFile pn)
            (mkProcessedData env ed.playerId o bytes) st.store.disk } },
       [Event.fetch o.name,
        Event.write (canonicalFile pn) (mkProcessedData env ed.playerId o bytes),
        Event.callback pn (mkProcessedData env ed.playerId o bytes)]) := by
    simp [processAndStoreInvoice, hobj, hff, hsf]
  rw [heq] at hred
  rw [hred]
  refine ⟨?_, ?_, ?_⟩
  · simp [fetchInvoiceFromFilesystem, mapGet_mapSet_self]
  · exact contains_insert_self pn st.store.cache
  · exact mapGet_mapDelete_self pn st.expected hct

/-- Witness for C6: a concrete run in which only the callback throws. -/
theorem callback_failure_keeps_processing_witness :
    fetchInvoiceFromFilesystem "1030"
        (checkAndProcessInvoiceFile envCbFailA objA stA).1.store.disk =
      some (mkProcessedData envCbFailA edA.playerId objA bytesA) ∧
    (checkAndProcessInvoiceFile envCbFailA objA stA).1.store.cache.contains
        "1030" = true ∧
    mapGet "1030" (checkAndProcessInvoiceFile envCbFailA objA stA).1.expected =
      none :=
  callback_failure_keeps_processing envCbFailA objA stA "1030" edA bytesA
    (by decide) rfl rfl rfl rfl rfl rfl rfl (by decide)

/-- C8: re-registration is last-write-wins.  For two successive
`registerExpectedInvoice` calls for the same PN with non-empty arguments,
starting from a registry with at most one entry for that PN, the registry
afterwards holds exactly one entry for the PN and it carries the second
call's player id and order payload. -/
theorem reregistration_last_write_wins
    (m : List (String × ExpectedInvoiceData)) (pn pid1 pid2 : String)
    (od1 od2 : OrderData) (t1 t2 : String)
    (hpn : pn ≠ "") (h1 : pid1 ≠ "") (h2 : pid2 ≠ "")
    (hct : countKey pn m ≤ 1) :
    countKey pn
        (registerExpectedInvoice
          (registerExpectedInvoice m (some pn) (some pid1) od1 t1)
          (some pn) (some pid2) od2 t2) = 1 ∧
    mapGet pn
        (registerExpectedInvoice
          (registerExpectedInvoice m (some pn) (some pid1) od1 t1)
          (some pn) (some pid2) od2 t2) =
      some (mkExpectedInvoiceData pid2 od2 t2) := by
  have hcond1 : ¬(pn = "" ∨ pid1 = "") := by
    intro hor
    rcases hor with h | h
    · exact hpn h
    · exact h1 h
  have hcond2 : ¬(pn = "" ∨ pid2 = "") := by
    intro hor
    rcases hor with h | h
    · exact hpn h
    · exact h2 h
  simp only [registerExpectedInvoice, if_neg hcond1, if_neg hcond2]
  have hc1 : countKey pn (mapSet pn (mkExpectedInvoiceData pid1 od1 t1) m) = 1 :=
    countKey_mapSet_self pn _ m hct
  refine ⟨countKey_mapSet_self pn _ _ (by omega), mapGet_mapSet_self pn _ _⟩

/-- Witness for C8 at a concrete double registration. -/
theorem reregistration_last_write_wins_witness :
    countKey "1030"
        (registerExpectedInvoice
          (registerExpectedInvoice [] (some "1030") (some "alice") orderA "t0")
          (some "1030") (some "bob") orderB "t1") = 1 ∧
    mapGet "1030"
        (registerExpectedInvoice
          (registerExpectedInvoice [] (some "1030") (some "alice") orderA "t0")
          (some "1030") (some "bob") orderB "t1") =
      some (mkExpectedInvoiceData "bob" orderB "t1") :=
  reregistration_last_write_wins [] "1030" "alice" "bob" orderA orderB
    "t0" "t1" (by decide) (by decide) (by decide) (by decide)

/-- C10: a `registerExpectedInvoice` call with a missing or empty
`invoiceNumber` or `playerId` returns leaving the expected-invoice map
completely unchanged. -/
theorem register_missing_args_noop (m : List (String × ExpectedInvoiceData))
    (invoiceNumber playerId : Option String) (orderData : OrderData)
    (now : String)
    (h : jsFalsy invoiceNumber = true ∨ jsFalsy playerId = true) :
    registerExpectedInvoice m invoiceNumber playerId orderData now = m := by
  cases invoiceNumber with
  | none => rfl
  | some inv =>
      cases playerId with
      | none => rfl
      | some pid =>
          rcases h with h | h
          · have hinv : inv = "" := by simpa [jsFalsy] using h
            simp [registerExpectedInvoice, hinv]
          · have hpid : pid = "" := by simpa [jsFalsy] using h
            simp [registerExpectedInvoice, hpid]

/-- Witness for C10: registering with an empty invoice number is a no-op. -/
theorem register_missing_args_noop_witness :
    registerExpectedInvoice [("1030", edA)] (some "") (some "alice")
      orderA "t0" = [("1030", edA)] :=
  register_missing_args_noop [("1030", edA)] (some "") (some "alice")
    orderA "t0" (Or.inl (by decide))

/-- C3 (divergence): the dedup cache and the disk lose coherence.  After
`put("1030")` followed by `delete("1030")` from an empty store, `has`
reports `false` while `get` still returns the record, because `put`
writes `invoice_1030.json` while `delete` unlinks `1030.json`.  Seeding an
empty cache from a directory holding `invoice_1030.json` likewise yields a
cache entry `invoice_1030` rather than `1030`, so `has("1030")` is `false`
while `get("1030")` succeeds. -/
theorem store_coherence_failure :
    (storeHas "1030" (storeDelete "1030" (storePut "1030" recA emptyStore)) =
        false ∧
      storeGet "1030" (storeDelete "1030" (storePut "1030" recA emptyStore)) =
        some recA) ∧
    (storeHas "1030"
        (storeSeed { cache := [], disk := [("invoice_1030.json", recA)] }) =
        false ∧
      storeGet "1030"
        (storeSeed { cache := [], disk := [("invoice_1030.json", recA)] }) =
        some recA) := by
  decide

/-- C7 (counterexample): with only the legacy file `1030.json` on disk,
the read operation reports not-found — there is no legacy fallback, so
the claim that `get` falls back to `<PN>.json` fails here. -/
theorem legacy_read_fallback_counterexample :
    mapGet (canonicalFile "1030") [(legacyFile "1030", recA)] = none ∧
    mapGet (legacyFile "1030") [(legacyFile "1030", recA)] = some recA ∧
    fetchInvoiceFromFilesystem "1030" [(legacyFile "1030", recA)] = none := by
  decide

/-- C7 (amended): `get(PN)` consults only the canonical filename
`invoice_<PN>.json`; it reports not-found exactly when that file is
absent, regardless of any legacy `<PN>.json` file. -/
theorem canonical_only_read (invoiceNumber : String)
    (disk : List (String × InvoiceRecord)) :
    fetchInvoiceFromFilesystem invoiceNumber disk =
      mapGet (canonicalFile invoiceNumber) disk ∧
    (mapGet (canonicalFile invoiceNumber) disk = none →
      fetchInvoiceFromFilesystem invoiceNumber disk = none) :=
  ⟨rfl, fun h => h⟩

/-- Witness for C7's amended claim on a disk holding only the legacy
file. -/
theorem canonical_only_read_witness :
    fetchInvoiceFromFilesystem "1030" [(legacyFile "1030", recA)] = none :=
  (canonical_only_read "1030" [(legacyFile "1030", recA)]).2 (by decide)

/-- C4: a `request_invoice` for a PN without a stored record is answered
with an error `invoice_response` frame and the session is not closed;
when a record exists the reply is an `invoice_pdf` frame carrying the full
stored base64 payload (and the session again stays open). -/
theorem request_invoice_response
    (expected : List (String × ExpectedInvoiceData)) (store : StoreState)
    (requester : Option String) (pn : String) :
    (storeGet pn store = none →
      handleRequestInvoice expected store requester pn =
        (ServerFrame.invoiceError pn ("Invoice " ++ pn ++ " not found"),
         false)) ∧
    (∀ record, storeGet pn store = some record →
      ∃ smry, handleRequestInvoice expected store requester pn =
        (ServerFrame.invoicePdf pn record.base64Data record.fileSize smry,
         false)) := by
  constructor
  · intro hr
    simp [handleRequestInvoice, hr]
  · intro record hr
    simp only [handleRequestInvoice, hr]
    exact ⟨_, rfl⟩

/-- Witness for C4: a request for an unknown PN on an empty store. -/
theorem request_invoice_response_witness :
    handleRequestInvoice [] emptyStore none "nope" =
      (ServerFrame.invoiceError "nope" "Invoice nope not found", false) :=
  (request_invoice_response [] emptyStore none "nope").1 (by decide)

end ShopMaze
